import Mathlib

/-!
Verification of gopayroll: the greeting library and the payroll entry point.

Source files embedded here:

* `libs/helloworld/message.go`: `CreateMsg`
* `services/payroll/main.go`: `createMsg`, `main`

Both call into Go's standard package `fmt` (`Sprintf`, `Println`).  The part of
`fmt` that the calls can reach, and its neighbouring cases, is modelled below
for operands of type `string`: first as functions from format and operands to the
bytes produced, then (namespace `stateful`) on the printers that `fmt` caches between
calls.  Standard output is a byte sequence together with what descriptor 1 does with
a write.
-/

/-- A Go `string` is an immutable sequence of bytes (not necessarily valid UTF-8). -/
abbrev GoString := List UInt8

/-- Bytes of a Go string literal: Go source text is UTF-8 encoded. -/
def lit (s : String) : GoString := s.data.flatMap String.utf8EncodeChar

/-- Byte of an ASCII character constant such as `'%'`. -/
def chr (c : Char) : UInt8 := c.toNat.toUInt8

namespace fmt

/-- Bytes that, right after a `%`, start a flag, a width, a precision or an
explicit argument index (`# 0 + - space`, digits, `.`, `*`, `[`).  Directives
using them are outside the modelled fragment. -/
def isModifier (c : UInt8) : Bool :=
  c == chr '#' || c == chr '+' || c == chr '-' || c == chr ' ' ||
  c == chr '.' || c == chr '*' || c == chr '[' ||
  (chr '0' ≤ c && c ≤ chr '9')

/-- Output of `(*pp).badVerb` for a `string` operand: `%!verb(string=arg)`. -/
def badVerb (verb : UInt8) (arg : GoString) : GoString :=
  lit "%!" ++ [verb] ++ lit "(string=" ++ arg ++ lit ")"

/-- Output of `(*pp).printArg` for a `string` operand and a one-byte verb, no flags set.
`%T` prints the operand's type; `%s` and `%v` write the bytes of the operand
unchanged (`fmtS`); `%x`, `%X`, `%q` and `%w` are outside the modelled fragment
(`none`); every other verb is a bad verb for a string. -/
def printArg (arg : GoString) (verb : UInt8) : Option GoString :=
  if verb = chr 'T' then some (lit "string")
  else if verb = chr 's' ∨ verb = chr 'v' then some arg
  else if verb = chr 'x' ∨ verb = chr 'X' ∨ verb = chr 'q' ∨ verb = chr 'w' then none
  else some (badVerb verb arg)

/-- Tail written by `doPrintf` when operands are left over:
`%!(EXTRA string=a, string=b)`; nothing when every operand was used. -/
def extraArgs : List GoString → GoString
  | [] => []
  | a :: rest =>
    lit "%!(EXTRA " ++ lit "string=" ++ a ++
      (rest.map (fun b => lit ", " ++ lit "string=" ++ b)).flatten ++ lit ")"

/-- The loop of `(*pp).doPrintf` over the format, for `string` operands.
The first argument is the unread part of the format, the second the operands
not yet used.  Bytes other than `%` are copied; `%%` writes one `%`; a `%` at the
end of the format writes `%!(NOVERB)`; a verb with no operand left writes
`%!verb(MISSING)`; otherwise the next operand is printed with `printArg`.
`none` marks a directive outside the modelled fragment (flags, width, precision,
argument index, a multi-byte verb, or a verb `printArg` does not model). -/
def doPrintf : GoString → List GoString → Option GoString
  | [], a => some (extraArgs a)
  | c :: rest, a =>
    if c ≠ chr '%' then
      (doPrintf rest a).map (fun out => c :: out)
    else
      match rest with
      | [] => some (lit "%!(NOVERB)" ++ extraArgs a)
      | verb :: rest2 =>
        if verb = chr '%' then
          (doPrintf rest2 a).map (fun out => chr '%' :: out)
        else if isModifier verb || decide (128 ≤ verb.toNat) then none
        else
          match a with
          | [] =>
            (doPrintf rest2 []).map
              (fun out => lit "%!" ++ [verb] ++ lit "(MISSING)" ++ out)
          | arg :: a2 =>
            match printArg arg verb with
            | none => none
            | some s => (doPrintf rest2 a2).map (fun out => s ++ out)

/-- Model of `fmt.Sprintf(format, a...)` with every operand a `string`. -/
def Sprintf (format : GoString) (a : List GoString) : Option GoString :=
  doPrintf format a

/-- Model of `(*pp).doPrintln` for `string` operands: the operands printed with
verb `v`, separated by single spaces, then a newline. -/
def doPrintln : List GoString → Option GoString
  | [] => some (lit "\n")
  | [arg] => (printArg arg (chr 'v')).map (fun s => s ++ lit "\n")
  | arg :: rest =>
    match printArg arg (chr 'v'), doPrintln rest with
    | some s, some out => some (s ++ lit " " ++ out)
    | _, _ => none

end fmt

/-- What the operating system does with a write to file descriptor 1.  It is part
of the state the process starts in, not an argument of `main`. -/
inductive Device where
  /-- A terminal, file or pipe that takes every byte of a write. -/
  | accepting
  /-- A closed descriptor or a full device: the write fails and writes nothing. -/
  | failing
  /-- A pipe whose reading end is closed: the write fails with `EPIPE`. -/
  | brokenPipe
deriving DecidableEq, Repr

/-- Observable state of the process: the bytes that reached standard output so far
and what descriptor 1 does with a write. -/
structure World where
  stdout : GoString
  device : Device
deriving DecidableEq, Repr

/-- How a call that performs output ends: it returns a value in a new state, or the
process is killed by a signal before the call returns. -/
inductive Ends (α : Type) where
  | returned (w : World) (v : α)
  | killed (w : World) (signal : Nat)
deriving DecidableEq, Repr

/-- How the process ends: with an exit status, or killed by a signal. -/
inductive Outcome where
  | exited (status : Nat)
  | signaled (signal : Nat)
deriving DecidableEq, Repr

namespace os

/-- Number of the signal `SIGPIPE`. -/
def SIGPIPE : Nat := 13

/-- Model of `os.Stdout.Write(b)`, returning the byte count and whether the error is
non-nil.  An accepting descriptor takes all of `b`.  A failing one takes nothing and
returns an error.  On a broken pipe the write to descriptor 1 fails with `EPIPE` and
the Go runtime, in a program that never calls `signal.Notify`, lets `SIGPIPE` kill the
process. -/
def StdoutWrite (w : World) (b : GoString) : Ends (Nat × Bool) :=
  match w.device with
  | Device.accepting => Ends.returned { w with stdout := w.stdout ++ b } (b.length, false)
  | Device.failing => Ends.returned w (0, true)
  | Device.brokenPipe => Ends.killed w SIGPIPE

end os

namespace fmt

/-- Model of `fmt.Println(a...)`: format with `doPrintln` and hand the bytes to one
write on standard output, whose byte count and error are the results. -/
def Println (w : World) (a : List GoString) : Option (Ends (Nat × Bool)) :=
  (doPrintln a).map (fun out => os.StdoutWrite w out)

end fmt

namespace helloworld

/-- `func CreateMsg(name string) string { return fmt.Sprintf("Howdy Doo %s!", name) }` -/
def CreateMsg (name : GoString) : Option GoString :=
  fmt.Sprintf (lit "Howdy Doo %s!") [name]

end helloworld

namespace payroll

/-- `func createMsg(name string) string { return helloworld.CreateMsg(name) }` -/
def createMsg (name : GoString) : Option GoString :=
  helloworld.CreateMsg name

/-- `func main() { msg := createMsg("Mr. Yogi"); fmt.Println(msg) }`: the results of
`Println` are dropped, so a failed write is not handled. -/
def main (w : World) : Option (Ends Unit) :=
  match createMsg (lit "Mr. Yogi") with
  | none => none
  | some msg =>
    match fmt.Println w [msg] with
    | none => none
    | some (Ends.returned w2 _) => some (Ends.returned w2 ())
    | some (Ends.killed w2 sig) => some (Ends.killed w2 sig)

/-- The process as the Go runtime runs it: `main` is called without arguments; when
it returns the process exits with status 0, and when a signal killed it there is no
exit status.  The result is the final state and how the process ended. -/
def run (w : World) : Option (World × Outcome) :=
  match main w with
  | none => none
  | some (Ends.returned w2 _) => some (w2, Outcome.exited 0)
  | some (Ends.killed w2 sig) => some (w2, Outcome.signaled sig)

end payroll

/-! The printer cache of `fmt`.  `Sprintf` does not allocate a printer per call: it
takes one from the free list `ppFree`, prints into its buffer, and puts it back.  This
is the state that an earlier call leaves behind for a later one.  The definitions
below run the same format loop on a printer taken from the free list, to compare a
call made in one process state with a call made in another. -/

namespace stateful

/-- The flags of a printer, `fmtFlags` in `fmt`. -/
structure fmtFlags where
  widPresent : Bool
  precPresent : Bool
  minus : Bool
  plus : Bool
  sharp : Bool
  space : Bool
  zero : Bool
  plusV : Bool
  sharpV : Bool
deriving DecidableEq, Repr

/-- The value `fmtFlags{}`: no flag set. -/
def noFlags : fmtFlags :=
  { widPresent := false, precPresent := false, minus := false, plus := false,
    sharp := false, space := false, zero := false, plusV := false, sharpV := false }

/-- The printer `pp`, with the fields that bear on printing a `string` operand: the
output buffer `buf` and the flags of its formatter. -/
structure pp where
  buf : GoString
  flags : fmtFlags
deriving DecidableEq, Repr

/-- State of the process during a call: the outside world and the free list of
printers `ppFree`. -/
structure Process where
  world : World
  ppFree : List pp
deriving DecidableEq, Repr

/-- State in which the process starts: no printer has been cached yet. -/
def start (w : World) : Process := { world := w, ppFree := [] }

/-- `(*fmt).clearflags`: reset the flags. -/
def pp.clearflags (p : pp) : pp := { p with flags := noFlags }

/-- `(*buffer).writeString`, `writeByte`: append to the buffer. -/
def pp.writeString (p : pp) (s : GoString) : pp := { p with buf := p.buf ++ s }

/-- `(*fmt).fmtS`: truncate to the precision, pad to the width, write.  With neither
a width nor a precision present the string is written as it is; the other cases are
outside the modelled fragment. -/
def pp.fmtS (p : pp) (s : GoString) : Option pp :=
  if p.flags.widPresent || p.flags.precPresent then none else some (p.writeString s)

/-- `(*pp).fmtString(v, 'v')`: the quoted form under `sharpV` (not modelled), else `fmtS`. -/
def pp.fmtStringV (p : pp) (v : GoString) : Option pp :=
  if p.flags.sharpV then none else p.fmtS v

/-- `(*pp).badVerb` for a `string` operand: `%!verb(string=` then the operand printed
with verb `v`, then `)`. -/
def pp.badVerb (p : pp) (verb : UInt8) (arg : GoString) : Option pp :=
  ((((p.writeString (lit "%!")).writeString [verb]).writeString (lit "(")).writeString
      (lit "string")).writeString (lit "=") |>.fmtStringV arg
    |>.map (fun q => q.writeString (lit ")"))

/-- `(*pp).printArg` for a `string` operand and a one-byte verb. -/
def pp.printArg (p : pp) (arg : GoString) (verb : UInt8) : Option pp :=
  if verb = chr 'T' then p.fmtS (lit "string")
  else if verb = chr 's' then p.fmtS arg
  else if verb = chr 'v' then p.fmtStringV arg
  else if verb = chr 'x' ∨ verb = chr 'X' ∨ verb = chr 'q' ∨ verb = chr 'w' then none
  else p.badVerb verb arg

/-- The operands after the first in the `EXTRA` report: `, string=` and the operand. -/
def pp.extraLoop : pp → List GoString → Option pp
  | p, [] => some p
  | p, arg :: rest =>
    match (((p.writeString (lit ", ")).writeString (lit "string")).writeString
        (lit "=")).printArg arg (chr 'v') with
    | none => none
    | some q => pp.extraLoop q rest

/-- End of `doPrintf`: when operands are left over, clear the flags and report them. -/
def pp.extraArgs (p : pp) : List GoString → Option pp
  | [] => some p
  | arg :: rest =>
    match (((p.clearflags.writeString (lit "%!(EXTRA ")).writeString
        (lit "string")).writeString (lit "=")).printArg arg (chr 'v') with
    | none => none
    | some q => (pp.extraLoop q rest).map (fun r => r.writeString (lit ")"))

/-- The loop of `(*pp).doPrintf` on a printer, for `string` operands: the same cases
as `fmt.doPrintf`, writing into the buffer of the printer.  After each `%` the flags
are cleared before the verb is read; verb `v` moves `sharp` and `plus` to `sharpV` and
`plusV`. -/
def pp.doPrintf : pp → GoString → List GoString → Option pp
  | p, [], a => p.extraArgs a
  | p, c :: rest, a =>
    if c ≠ chr '%' then
      pp.doPrintf (p.writeString [c]) rest a
    else
      match rest with
      | [] => (p.clearflags.writeString (lit "%!(NOVERB)")).extraArgs a
      | verb :: rest2 =>
        if verb = chr '%' then
          pp.doPrintf (p.clearflags.writeString [chr '%']) rest2 a
        else if fmt.isModifier verb || decide (128 ≤ verb.toNat) then none
        else
          match a with
          | [] =>
            pp.doPrintf
              (((p.clearflags.writeString (lit "%!")).writeString [verb]).writeString
                (lit "(MISSING)")) rest2 []
          | arg :: a2 =>
            let p1 := p.clearflags
            let p2 : pp :=
              if verb = chr 'v' then
                { p1 with flags := { p1.flags with
                    sharpV := p1.flags.sharp, sharp := false,
                    plusV := p1.flags.plus, plus := false } }
              else p1
            match p2.printArg arg verb with
            | none => none
            | some q => pp.doPrintf q rest2 a2

/-- `newPrinter`: take a printer from the free list, or allocate a zero one when the
list is empty, and initialise its formatter, which clears the flags.  The buffer is
left as it is.  The head of the list stands for whichever cached printer the pool
hands out. -/
def newPrinter (ppFree : List pp) : pp × List pp :=
  match ppFree with
  | [] => (({ buf := [], flags := noFlags } : pp).clearflags, [])
  | p :: rest => (p.clearflags, rest)

/-- `(*pp).free`: cut the buffer to length zero and put the printer back on the free
list.  The flags stay as the call left them. -/
def pp.free (p : pp) (ppFree : List pp) : List pp :=
  { p with buf := [] } :: ppFree

/-- `fmt.Sprintf` in a process state: `p := newPrinter(); p.doPrintf(format, a);
s := string(p.buf); p.free(); return s`. -/
def Sprintf (st : Process) (format : GoString) (a : List GoString) :
    Option (GoString × Process) :=
  match newPrinter st.ppFree with
  | (p, rest) =>
    match p.doPrintf format a with
    | none => none
    | some q => some (q.buf, { st with ppFree := q.free rest })

/-- `helloworld.CreateMsg` called in a process state. -/
def CreateMsg (st : Process) (name : GoString) : Option (GoString × Process) :=
  Sprintf st (lit "Howdy Doo %s!") [name]

/-- The state after a list of earlier calls `CreateMsg(n)`, results dropped. -/
def earlierCalls : Process → List GoString → Option Process
  | st, [] => some st
  | st, n :: rest =>
    match CreateMsg st n with
    | none => none
    | some (_, st2) => earlierCalls st2 rest

/-- Invariant of the free list: every cached printer has an empty buffer. -/
def BuffersReset (st : Process) : Prop := ∀ p ∈ st.ppFree, p.buf = []

instance (st : Process) : Decidable (BuffersReset st) := by
  unfold BuffersReset
  infer_instance

end stateful

/-! The model of `fmt` on small formats -/

theorem Sprintf_missing_operand :
    fmt.Sprintf (lit "Howdy Doo %d!") [] = some (lit "Howdy Doo %!d(MISSING)!") := by
  decide

theorem Sprintf_bad_verb :
    fmt.Sprintf (lit "%d%%") [lit "Tester"] = some (lit "%!d(string=Tester)%") := by
  decide

theorem Sprintf_noverb_extra :
    fmt.Sprintf (lit "a%") [lit "x", lit "y"]
      = some (lit "a%!(NOVERB)%!(EXTRA string=x, string=y)") := by
  decide

theorem Sprintf_outside_fragment : fmt.Sprintf (lit "%5s") [lit "x"] = none := by
  decide

/-! Steps of the format loop -/

theorem lit_format_split :
    lit "Howdy Doo %s!" = lit "Howdy Doo " ++ (chr '%' :: chr 's' :: lit "!") := by
  decide

theorem doPrintf_copy (c : UInt8) (rest : GoString) (a : List GoString)
    (h : c ≠ chr '%') :
    fmt.doPrintf (c :: rest) a = (fmt.doPrintf rest a).map (fun out => c :: out) := by
  rw [fmt.doPrintf.eq_def]
  simp only [if_pos h]

theorem doPrintf_copy_all (pre rest : GoString) (a : List GoString)
    (h : ∀ c ∈ pre, c ≠ chr '%') :
    fmt.doPrintf (pre ++ rest) a = (fmt.doPrintf rest a).map (fun out => pre ++ out) := by
  induction pre with
  | nil => simp
  | cons c pre ih =>
    have hc : c ≠ chr '%' := h c (List.mem_cons_self _ _)
    have ht : ∀ d ∈ pre, d ≠ chr '%' := fun d hd => h d (List.mem_cons_of_mem _ hd)
    rw [List.cons_append, doPrintf_copy _ _ _ hc, ih ht]
    cases fmt.doPrintf rest a <;> simp

theorem printArg_s (arg : GoString) : fmt.printArg arg (chr 's') = some arg := by
  have h : chr 's' ≠ chr 'T' := by decide
  simp [fmt.printArg, h]

theorem printArg_v (arg : GoString) : fmt.printArg arg (chr 'v') = some arg := by
  have h : chr 'v' ≠ chr 'T' := by decide
  simp [fmt.printArg, h]

theorem doPrintf_string_verb (rest arg : GoString) (a : List GoString) :
    fmt.doPrintf (chr '%' :: chr 's' :: rest) (arg :: a)
      = (fmt.doPrintf rest a).map (fun out => arg ++ out) := by
  have h1 : ¬ (chr '%' ≠ chr '%') := by decide
  have h2 : chr 's' ≠ chr '%' := by decide
  have h3 : (fmt.isModifier (chr 's') || decide (128 ≤ (chr 's').toNat)) = false := by
    decide
  rw [fmt.doPrintf.eq_def]
  simp only [if_neg h1, if_neg h2, h3, printArg_s]
  simp

/-- The value of `CreateMsg` at every name. -/
theorem CreateMsg_value (s : GoString) :
    helloworld.CreateMsg s = some (lit "Howdy Doo " ++ s ++ lit "!") := by
  have hpre : ∀ c ∈ lit "Howdy Doo ", c ≠ chr '%' := by decide
  have hbang : fmt.doPrintf (lit "!") [] = some (lit "!") := by decide
  rw [helloworld.CreateMsg, fmt.Sprintf, lit_format_split, doPrintf_copy_all _ _ _ hpre,
    doPrintf_string_verb, hbang]
  simp

theorem lit_pre_length : (lit "Howdy Doo ").length = 10 := by decide

theorem lit_bang : lit "!" = [chr '!'] := by decide

theorem Println_one (w : World) (msg : GoString) :
    fmt.Println w [msg] = some (os.StdoutWrite w (msg ++ lit "\n")) := by
  simp [fmt.Println, fmt.doPrintln, printArg_v]

theorem createMsg_yogi :
    payroll.createMsg (lit "Mr. Yogi") = some (lit "Howdy Doo Mr. Yogi!") := by
  decide

/-- What a run does, by the state of descriptor 1. -/
theorem run_cases (w : World) :
    payroll.run w =
      match w.device with
      | Device.accepting =>
        some ({ w with stdout := w.stdout ++ (lit "Howdy Doo Mr. Yogi!" ++ lit "\n") },
          Outcome.exited 0)
      | Device.failing => some (w, Outcome.exited 0)
      | Device.brokenPipe => some (w, Outcome.signaled os.SIGPIPE) := by
  rcases w with ⟨out, dev⟩
  cases dev <;> simp [payroll.run, payroll.main, createMsg_yogi, Println_one, os.StdoutWrite]

/-- Stripping ten leading bytes and the last byte of a greeting gives the name back. -/
theorem strip_greeting (s : GoString) :
    ((lit "Howdy Doo " ++ s ++ lit "!").drop 10).dropLast = s := by
  have h : (lit "Howdy Doo " ++ s ++ lit "!").drop 10 = s ++ lit "!" := by
    rw [List.append_assoc, List.drop_append_eq_append_drop]
    simp [lit_pre_length]
  rw [h, lit_bang, List.dropLast_append_of_ne_nil _ (by simp)]
  simp

/-! Steps of the format loop on a cached printer -/

theorem pp_doPrintf_copy (p : stateful.pp) (c : UInt8) (rest : GoString)
    (a : List GoString) (h : c ≠ chr '%') :
    p.doPrintf (c :: rest) a = (p.writeString [c]).doPrintf rest a := by
  rw [stateful.pp.doPrintf.eq_def]
  simp only [if_pos h]

theorem pp_doPrintf_copy_all (pre rest : GoString) (a : List GoString)
    (h : ∀ c ∈ pre, c ≠ chr '%') (p : stateful.pp) :
    p.doPrintf (pre ++ rest) a = (p.writeString pre).doPrintf rest a := by
  induction pre generalizing p with
  | nil => simp [stateful.pp.writeString]
  | cons c pre ih =>
    have hc : c ≠ chr '%' := h c (List.mem_cons_self _ _)
    have ht : ∀ d ∈ pre, d ≠ chr '%' := fun d hd => h d (List.mem_cons_of_mem _ hd)
    rw [List.cons_append, pp_doPrintf_copy _ _ _ _ hc, ih ht]
    simp [stateful.pp.writeString]

theorem pp_printArg_s (p : stateful.pp) (arg : GoString)
    (h : p.flags = stateful.noFlags) :
    p.printArg arg (chr 's') = some (p.writeString arg) := by
  have h1 : chr 's' ≠ chr 'T' := by decide
  simp [stateful.pp.printArg, stateful.pp.fmtS, h1, h, stateful.noFlags]

theorem pp_doPrintf_string_verb (p : stateful.pp) (rest arg : GoString)
    (a : List GoString) :
    p.doPrintf (chr '%' :: chr 's' :: rest) (arg :: a)
      = (p.clearflags.writeString arg).doPrintf rest a := by
  have h1 : ¬ (chr '%' ≠ chr '%') := by decide
  have h2 : chr 's' ≠ chr '%' := by decide
  have h3 : (fmt.isModifier (chr 's') || decide (128 ≤ (chr 's').toNat)) = false := by
    decide
  have h4 : chr 's' ≠ chr 'v' := by decide
  rw [stateful.pp.doPrintf.eq_def]
  simp only [if_neg h1, if_neg h2, if_neg h4, h3, pp_printArg_s p.clearflags arg rfl]
  simp

theorem pp_doPrintf_bang (p : stateful.pp) :
    p.doPrintf (lit "!") [] = some (p.writeString (lit "!")) := by
  have h : lit "!" = [chr '!'] := by decide
  have h1 : chr '!' ≠ chr '%' := by decide
  rw [h, pp_doPrintf_copy _ _ _ _ h1, stateful.pp.doPrintf.eq_def]
  simp [stateful.pp.extraArgs]

/-- The format of `CreateMsg` run on any printer: the greeting is appended to whatever
the buffer held, and the flags end cleared. -/
theorem pp_doPrintf_greeting (p : stateful.pp) (s : GoString) :
    p.doPrintf (lit "Howdy Doo %s!") [s]
      = some { buf := p.buf ++ (lit "Howdy Doo " ++ s ++ lit "!"),
               flags := stateful.noFlags } := by
  have hpre : ∀ c ∈ lit "Howdy Doo ", c ≠ chr '%' := by decide
  rw [lit_format_split, pp_doPrintf_copy_all _ _ _ hpre, pp_doPrintf_string_verb,
    pp_doPrintf_bang]
  simp [stateful.pp.writeString, stateful.pp.clearflags]

/-- A call of `CreateMsg` in any process state: the result is the buffer of the printer
handed out followed by the greeting; the printer goes back with an empty buffer. -/
theorem CreateMsg_from (st : stateful.Process) (s : GoString) :
    stateful.CreateMsg st s
      = some ((stateful.newPrinter st.ppFree).1.buf ++ (lit "Howdy Doo " ++ s ++ lit "!"),
          { st with ppFree :=
              { buf := [], flags := stateful.noFlags } ::
                (stateful.newPrinter st.ppFree).2 }) := by
  simp only [stateful.CreateMsg, stateful.Sprintf, pp_doPrintf_greeting, stateful.pp.free]

theorem newPrinter_buf (st : stateful.Process) (h : stateful.BuffersReset st) :
    (stateful.newPrinter st.ppFree).1.buf = [] := by
  rcases st with ⟨w, pool⟩
  cases pool with
  | nil => rfl
  | cons p0 rest => exact h p0 (List.mem_cons_self _ _)

theorem newPrinter_rest (st : stateful.Process) (h : stateful.BuffersReset st) :
    ∀ p ∈ (stateful.newPrinter st.ppFree).2, p.buf = [] := by
  rcases st with ⟨w, pool⟩
  cases pool with
  | nil => intro p hp; simp [stateful.newPrinter] at hp
  | cons p0 rest => exact fun p hp => h p (List.mem_cons_of_mem _ hp)

theorem CreateMsg_reset (st : stateful.Process) (h : stateful.BuffersReset st)
    (s : GoString) :
    ∃ st2 : stateful.Process,
      stateful.CreateMsg st s = some (lit "Howdy Doo " ++ s ++ lit "!", st2) ∧
      st2.world = st.world ∧ stateful.BuffersReset st2 := by
  refine ⟨{ st with ppFree :=
      { buf := [], flags := stateful.noFlags } :: (stateful.newPrinter st.ppFree).2 },
    ?_, rfl, ?_⟩
  · rw [CreateMsg_from, newPrinter_buf st h, List.nil_append]
  · intro p hp
    simp only [List.mem_cons] at hp
    rcases hp with hp | hp
    · rw [hp]
    · exact newPrinter_rest st h p hp

theorem earlierCalls_reset (earlier : List GoString) (st : stateful.Process)
    (h : stateful.BuffersReset st) :
    ∃ st2 : stateful.Process, stateful.earlierCalls st earlier = some st2 ∧
      st2.world = st.world ∧ stateful.BuffersReset st2 := by
  induction earlier generalizing st with
  | nil => exact ⟨st, rfl, rfl, h⟩
  | cons n rest ih =>
    obtain ⟨st1, h1, hw1, hr1⟩ := CreateMsg_reset st h n
    obtain ⟨st2, h2, hw2, hr2⟩ := ih st1 hr1
    refine ⟨st2, ?_, hw2.trans hw1, hr2⟩
    simp only [stateful.earlierCalls, h1, h2]

theorem start_reset (w : World) : stateful.BuffersReset (stateful.start w) := by
  intro p hp
  simp [stateful.start] at hp

/-- A cached printer whose buffer had not been cut would leak into the next result:
the invariant is what `free` provides, not a property of every state. -/
theorem stale_buffer_leaks :
    (stateful.CreateMsg
        { world := { stdout := [], device := Device.accepting },
          ppFree := [{ buf := lit "junk", flags := stateful.noFlags }] }
        (lit "Tester")).map Prod.fst
      = some (lit "junkHowdy Doo Tester!") := by
  decide

/-- Without the reset in `newPrinter` and after `%`, a width left by an earlier call
would take the printer out of the plain case. -/
theorem stale_flags_matter :
    stateful.pp.printArg
        { buf := [], flags := { stateful.noFlags with widPresent := true } }
        (lit "Tester") (chr 's') = none := by
  decide

/-! The loop on a cached printer against `fmt.doPrintf` -/

theorem pp_fmtS_plain (p : stateful.pp) (s : GoString) (h : p.flags = stateful.noFlags) :
    p.fmtS s = some (p.writeString s) := by
  simp [stateful.pp.fmtS, h, stateful.noFlags]

theorem pp_fmtStringV_plain (p : stateful.pp) (s : GoString) (h : p.flags = stateful.noFlags) :
    p.fmtStringV s = some (p.writeString s) := by
  simp [stateful.pp.fmtStringV, stateful.pp.fmtS, h, stateful.noFlags]

theorem lit_badVerb_open : lit "(" ++ lit "string" ++ lit "=" = lit "(string=" := by decide

theorem pp_printArg_plain (p : stateful.pp) (arg : GoString) (verb : UInt8)
    (h : p.flags = stateful.noFlags) :
    p.printArg arg verb = (fmt.printArg arg verb).map (fun out => p.writeString out) := by
  unfold stateful.pp.printArg fmt.printArg
  by_cases hT : verb = chr 'T'
  · rw [if_pos hT, if_pos hT, pp_fmtS_plain _ _ h]; rfl
  · rw [if_neg hT, if_neg hT]
    by_cases hs : verb = chr 's'
    · rw [if_pos hs, if_pos (Or.inl hs), pp_fmtS_plain _ _ h]; rfl
    · rw [if_neg hs]
      by_cases hv : verb = chr 'v'
      · rw [if_pos hv, if_pos (Or.inr hv), pp_fmtStringV_plain _ _ h]; rfl
      · rw [if_neg hv, if_neg (not_or.mpr ⟨hs, hv⟩)]
        by_cases hx : verb = chr 'x' ∨ verb = chr 'X' ∨ verb = chr 'q' ∨ verb = chr 'w'
        · rw [if_pos hx, if_pos hx]; rfl
        · rw [if_neg hx, if_neg hx]
          unfold stateful.pp.badVerb fmt.badVerb
          rw [pp_fmtStringV_plain _ _ (by simpa [stateful.pp.writeString] using h)]
          simp [stateful.pp.writeString, ← lit_badVerb_open]

theorem pp_extraLoop_plain (rest : List GoString) (p : stateful.pp)
    (h : p.flags = stateful.noFlags) :
    p.extraLoop rest
      = some (p.writeString (rest.map (fun b => lit ", " ++ lit "string=" ++ b)).flatten) := by
  have hl : lit "string" ++ lit "=" = lit "string=" := by decide
  induction rest generalizing p with
  | nil => simp [stateful.pp.extraLoop, stateful.pp.writeString]
  | cons arg rest ih =>
    rw [stateful.pp.extraLoop, pp_printArg_plain _ _ _ (by simpa [stateful.pp.writeString] using h),
      printArg_v]
    simp only [Option.map_some']
    rw [ih _ (by simpa [stateful.pp.writeString] using h)]
    simp [stateful.pp.writeString, ← hl]

theorem pp_extraArgs_buf (a : List GoString) (p : stateful.pp) :
    (p.extraArgs a).map (fun q => q.buf) = some (p.buf ++ fmt.extraArgs a) := by
  have hl : lit "string" ++ lit "=" = lit "string=" := by decide
  cases a with
  | nil => simp [stateful.pp.extraArgs, fmt.extraArgs]
  | cons arg rest =>
    rw [stateful.pp.extraArgs, pp_printArg_plain _ _ _ (by simp [stateful.pp.writeString, stateful.pp.clearflags]),
      printArg_v]
    simp only [Option.map_some']
    rw [pp_extraLoop_plain _ _ (by simp [stateful.pp.writeString, stateful.pp.clearflags])]
    simp [stateful.pp.writeString, stateful.pp.clearflags, fmt.extraArgs, ← hl]

theorem pp_doPrintf_refines_aux (n : Nat) :
    ∀ (format : GoString), format.length ≤ n → ∀ (a : List GoString) (p : stateful.pp),
      (p.doPrintf format a).map (fun q => q.buf)
        = (fmt.doPrintf format a).map (fun out => p.buf ++ out) := by
  induction n using Nat.strong_induction_on with
  | _ n ih =>
    intro format hlen a p
    rw [stateful.pp.doPrintf.eq_def, fmt.doPrintf.eq_def]
    cases format with
    | nil => simp [pp_extraArgs_buf]
    | cons c rest =>
      simp only
      by_cases hc : c ≠ chr '%'
      · rw [if_pos hc, if_pos hc]
        have := ih (n - 1) (by simp at hlen; omega) rest (by simp at hlen; omega) a (p.writeString [c])
        rw [this]
        cases fmt.doPrintf rest a <;> simp [stateful.pp.writeString]
      · rw [if_neg hc, if_neg hc]
        cases rest with
        | nil => simp [pp_extraArgs_buf, stateful.pp.writeString, stateful.pp.clearflags]
        | cons verb rest2 =>
          simp only
          have ih2 := ih (n - 2) (by simp at hlen; omega) rest2 (by simp at hlen; omega)
          by_cases hp : verb = chr '%'
          · rw [if_pos hp, if_pos hp, ih2]
            cases fmt.doPrintf rest2 a <;> simp [stateful.pp.writeString, stateful.pp.clearflags]
          · rw [if_neg hp, if_neg hp]
            by_cases hm : (fmt.isModifier verb || decide (128 ≤ verb.toNat)) = true
            · rw [if_pos hm, if_pos hm]; rfl
            · rw [if_neg hm, if_neg hm]
              cases a with
              | nil =>
                simp only
                rw [ih2]
                cases fmt.doPrintf rest2 [] <;> simp [stateful.pp.writeString, stateful.pp.clearflags]
              | cons arg a2 =>
                simp only
                have hflags : (if verb = chr 'v' then
                    ({ p.clearflags with flags := { p.clearflags.flags with
                        sharpV := p.clearflags.flags.sharp, sharp := false,
                        plusV := p.clearflags.flags.plus, plus := false } } : stateful.pp)
                    else p.clearflags) = p.clearflags := by
                  split <;> rfl
                rw [hflags, pp_printArg_plain _ _ _ rfl]
                cases fmt.printArg arg verb with
                | none => rfl
                | some out =>
                  simp only [Option.map_some']
                  rw [ih2]
                  cases fmt.doPrintf rest2 a2 <;> simp [stateful.pp.writeString, stateful.pp.clearflags]

/-- The loop on a printer writes what `fmt.doPrintf` computes, after what the buffer
held, for every format and operands, whatever flags the printer arrived with. -/
theorem pp_doPrintf_refines (format : GoString) (a : List GoString) (p : stateful.pp) :
    (p.doPrintf format a).map (fun q => q.buf)
      = (fmt.doPrintf format a).map (fun out => p.buf ++ out) :=
  pp_doPrintf_refines_aux format.length format (Nat.le_refl _) a p

/-- In a state whose cached buffers are empty, `Sprintf` on a cached printer returns
what `fmt.Sprintf` computes, for every format and operands. -/
theorem Sprintf_refines (st : stateful.Process) (h : stateful.BuffersReset st)
    (format : GoString) (a : List GoString) :
    (stateful.Sprintf st format a).map Prod.fst = fmt.Sprintf format a := by
  have hr := pp_doPrintf_refines format a (stateful.newPrinter st.ppFree).1
  rw [newPrinter_buf st h] at hr
  unfold stateful.Sprintf fmt.Sprintf
  cases hq : (stateful.newPrinter st.ppFree).1.doPrintf format a with
  | none =>
    rw [hq] at hr
    cases hd : fmt.doPrintf format a with
    | none => simp [hq]
    | some out => rw [hd] at hr; simp at hr
  | some q =>
    rw [hq] at hr
    cases hd : fmt.doPrintf format a with
    | none => rw [hd] at hr; simp at hr
    | some out =>
      rw [hd] at hr
      simp at hr
      simp [hq, hr]

/-! Claims -/

/-- C1: for every string `s`, `CreateMsg(s)` is the literal "Howdy Doo ", then `s`,
then the literal "!"; in particular `CreateMsg("Tester")` is "Howdy Doo Tester!". -/
theorem CreateMsg_concat (s : GoString) :
    helloworld.CreateMsg s = some (lit "Howdy Doo " ++ s ++ lit "!") ∧
    helloworld.CreateMsg (lit "Tester") = some (lit "Howdy Doo Tester!") :=
  ⟨CreateMsg_value s, by decide⟩

/-- C2: the payroll service's `createMsg(name)` returns exactly what
`helloworld.CreateMsg(name)` returns, hence "Howdy Doo " ++ name ++ "!", and
`createMsg("Tester")` is "Howdy Doo Tester!". -/
theorem createMsg_eq_CreateMsg (name : GoString) :
    payroll.createMsg name = helloworld.CreateMsg name ∧
    payroll.createMsg name = some (lit "Howdy Doo " ++ name ++ lit "!") ∧
    payroll.createMsg (lit "Tester") = some (lit "Howdy Doo Tester!") :=
  ⟨rfl, CreateMsg_value name, by decide⟩

/-- C3, as stated, fails: on a broken pipe the process is killed by `SIGPIPE` with
nothing written, and on a closed or full standard output it exits with status 0 with
nothing written; so not every run writes the line and exits with status 0. -/
theorem main_unwritable_stdout :
    payroll.run { stdout := [], device := Device.brokenPipe }
      = some ({ stdout := [], device := Device.brokenPipe }, Outcome.signaled 13) ∧
    payroll.run { stdout := [], device := Device.failing }
      = some ({ stdout := [], device := Device.failing }, Outcome.exited 0) ∧
    ¬ (∀ w : World, ∃ w2 : World, payroll.run w = some (w2, Outcome.exited 0) ∧
        w2.stdout = w.stdout ++ lit "Howdy Doo Mr. Yogi!\n") := by
  refine ⟨by decide, by decide, ?_⟩
  intro h
  obtain ⟨w2, h2, _⟩ := h { stdout := [], device := Device.brokenPipe }
  revert h2
  rw [run_cases]
  simp

/-- C3, amended: when standard output accepts the write, running the entry point
appends exactly the bytes of `createMsg("Mr. Yogi")`, which is "Howdy Doo Mr. Yogi!",
followed by one newline, and exits with status 0; the message holds no newline, so
the output is one line.  A write that standard output rejects is not handled: nothing
is written, and the process exits with status 0 or, on a broken pipe, is killed by
`SIGPIPE`. -/
theorem main_prints_one_line (w : World) (h : w.device = Device.accepting) :
    payroll.createMsg (lit "Mr. Yogi") = some (lit "Howdy Doo Mr. Yogi!") ∧
    payroll.run w
      = some ({ w with stdout := w.stdout ++ (lit "Howdy Doo Mr. Yogi!" ++ lit "\n") },
          Outcome.exited 0) ∧
    lit "\n" = [10] ∧ (10 : UInt8) ∉ lit "Howdy Doo Mr. Yogi!" ∧
    (∀ out : GoString,
      payroll.run { stdout := out, device := Device.failing }
        = some ({ stdout := out, device := Device.failing }, Outcome.exited 0) ∧
      payroll.run { stdout := out, device := Device.brokenPipe }
        = some ({ stdout := out, device := Device.brokenPipe },
            Outcome.signaled os.SIGPIPE)) := by
  refine ⟨createMsg_yogi, ?_, by decide, by decide, ?_⟩
  · rw [run_cases, h]
  · intro out
    exact ⟨by rw [run_cases], by rw [run_cases]⟩

theorem main_prints_one_line_witness :
    ({ stdout := [], device := Device.accepting } : World).device = Device.accepting ∧
    payroll.run { stdout := [], device := Device.accepting }
      = some ({ stdout := lit "Howdy Doo Mr. Yogi!\n", device := Device.accepting },
          Outcome.exited 0) :=
  ⟨rfl, (main_prints_one_line { stdout := [], device := Device.accepting } rfl).2.1⟩

/-- C4: `CreateMsg` of the empty string returns exactly "Howdy Doo !", the leading
literal with its trailing space directly followed by the closing literal. -/
theorem CreateMsg_empty :
    helloworld.CreateMsg (lit "") = some (lit "Howdy Doo !") ∧
    lit "" = [] ∧ lit "Howdy Doo !" = lit "Howdy Doo " ++ lit "!" := by
  decide

/-- C5: `CreateMsg` is total: for every string, of any length and content, it
returns a string; no input leads to a failure or leaves the modelled part of `fmt`. -/
theorem CreateMsg_total (s : GoString) : ∃ r : GoString, helloworld.CreateMsg s = some r :=
  ⟨_, CreateMsg_value s⟩

/-- C6: `CreateMsg` is deterministic and depends only on its argument: two evaluations
of `CreateMsg(s)`, made in any two process states that the program can be in (any
outside world, any printers left in the cache of `fmt` by earlier calls, with whatever
flags those calls set), return the same string, the one the argument determines; the
call leaves the outside world as it was and the cache fit for the next call.  After any
list of earlier calls, from any starting world, the result is that same string. -/
theorem CreateMsg_deterministic (s : GoString) (st₁ st₂ : stateful.Process)
    (h₁ : stateful.BuffersReset st₁) (h₂ : stateful.BuffersReset st₂) :
    (∃ (r : GoString) (st₁' st₂' : stateful.Process),
      stateful.CreateMsg st₁ s = some (r, st₁') ∧
      stateful.CreateMsg st₂ s = some (r, st₂') ∧
      helloworld.CreateMsg s = some r ∧
      st₁'.world = st₁.world ∧ st₂'.world = st₂.world ∧
      stateful.BuffersReset st₁' ∧ stateful.BuffersReset st₂') ∧
    (∀ (w : World) (earlier : List GoString), ∃ st st' : stateful.Process,
      stateful.earlierCalls (stateful.start w) earlier = some st ∧
      stateful.CreateMsg st s = some (lit "Howdy Doo " ++ s ++ lit "!", st') ∧
      st'.world = w) := by
  constructor
  · obtain ⟨a, ha, hwa, hra⟩ := CreateMsg_reset st₁ h₁ s
    obtain ⟨b, hb, hwb, hrb⟩ := CreateMsg_reset st₂ h₂ s
    exact ⟨_, a, b, ha, hb, CreateMsg_value s, hwa, hwb, hra, hrb⟩
  · intro w earlier
    obtain ⟨st, he, hw, hr⟩ := earlierCalls_reset earlier (stateful.start w) (start_reset w)
    obtain ⟨st', hc, hw', _⟩ := CreateMsg_reset st hr s
    exact ⟨st, st', he, hc, hw'.trans hw⟩

theorem CreateMsg_deterministic_witness :
    stateful.BuffersReset (stateful.start { stdout := [], device := Device.accepting }) ∧
    stateful.BuffersReset
      { world := { stdout := lit "earlier output\n", device := Device.brokenPipe },
        ppFree := [{ buf := [], flags := { stateful.noFlags with
                      widPresent := true, minus := true, sharpV := true } }] } ∧
    ∃ (r : GoString) (st₁' st₂' : stateful.Process),
      stateful.CreateMsg (stateful.start { stdout := [], device := Device.accepting })
        (lit "Tester") = some (r, st₁') ∧
      stateful.CreateMsg
        { world := { stdout := lit "earlier output\n", device := Device.brokenPipe },
          ppFree := [{ buf := [], flags := { stateful.noFlags with
                        widPresent := true, minus := true, sharpV := true } }] }
        (lit "Tester") = some (r, st₂') ∧
      r = lit "Howdy Doo Tester!" :=
  ⟨by decide, by decide,
    match (CreateMsg_deterministic (lit "Tester")
      (stateful.start { stdout := [], device := Device.accepting })
      { world := { stdout := lit "earlier output\n", device := Device.brokenPipe },
        ppFree := [{ buf := [], flags := { stateful.noFlags with
                      widPresent := true, minus := true, sharpV := true } }] }
      (by decide) (by decide)).1 with
    | ⟨r, a, b, ha, hb, hr, _⟩ =>
      ⟨r, a, b, ha, hb, Option.some.inj (hr.symm.trans (by decide))⟩⟩

/-- C7: the name is data, never a format: for every string `s` that holds a `%`
byte, `CreateMsg(s)` is still "Howdy Doo " ++ s ++ "!" with `s` unchanged; so for
"%d" and "100%". -/
theorem CreateMsg_percent_verbatim (s : GoString) (_h : chr '%' ∈ s) :
    helloworld.CreateMsg s = some (lit "Howdy Doo " ++ s ++ lit "!") ∧
    helloworld.CreateMsg (lit "%d") = some (lit "Howdy Doo %d!") ∧
    helloworld.CreateMsg (lit "100%") = some (lit "Howdy Doo 100%!") :=
  ⟨CreateMsg_value s, by decide, by decide⟩

theorem CreateMsg_percent_verbatim_witness :
    chr '%' ∈ lit "%s%d" ∧
    helloworld.CreateMsg (lit "%s%d") = some (lit "Howdy Doo " ++ lit "%s%d" ++ lit "!") :=
  ⟨by decide, (CreateMsg_percent_verbatim (lit "%s%d") (by decide)).1⟩

/-- C8: the name is recoverable from the greeting: the greeting starts with the
10 bytes "Howdy Doo ", ends in "!", and dropping both gives `s` back; hence
`CreateMsg` is injective. -/
theorem CreateMsg_injective :
    (∀ s : GoString, ∃ r : GoString, helloworld.CreateMsg s = some r ∧
      r.take 10 = lit "Howdy Doo " ∧ r.getLast? = some (chr '!') ∧
      (r.drop 10).dropLast = s) ∧
    (∀ a b : GoString, helloworld.CreateMsg a = helloworld.CreateMsg b → a = b) := by
  constructor
  · intro s
    refine ⟨_, CreateMsg_value s, ?_, ?_, strip_greeting s⟩
    · rw [List.append_assoc, List.take_append_eq_append_take]
      simp [lit_pre_length]
    · simp [lit_bang]
  · intro a b h
    rw [CreateMsg_value, CreateMsg_value] at h
    have h2 := congrArg (fun r : GoString => (r.drop 10).dropLast) (Option.some.inj h)
    simp only [strip_greeting] at h2
    exact h2

theorem CreateMsg_injective_witness :
    helloworld.CreateMsg (lit "Ann") = helloworld.CreateMsg ([65] ++ lit "nn") ∧
    lit "Ann" = [65] ++ lit "nn" :=
  ⟨by decide, CreateMsg_injective.2 (lit "Ann") ([65] ++ lit "nn") (by decide)⟩

/-- C9: the length of `CreateMsg(s)` is the length of `s` plus 11, 10 for
"Howdy Doo " and 1 for "!", so the result is never empty. -/
theorem CreateMsg_length (s : GoString) :
    ∃ r : GoString, helloworld.CreateMsg s = some r ∧ r.length = s.length + 11 ∧
      r ≠ [] ∧ (lit "Howdy Doo ").length = 10 ∧ (lit "!").length = 1 := by
  refine ⟨_, CreateMsg_value s, ?_, ?_, by decide, by decide⟩
  · simp [lit_pre_length, lit_bang]
    omega
  · intro h
    have := congrArg List.length h
    simp [lit_pre_length] at this
